import Mathlib

/-!
Verification of the PyLaTeX rendering core (src/pylatex/document.py and
src/pylatex/math.py) against its natural-language specification.

The two source modules import `Container`, `Command`, `LatexObject` from
`base_classes`, `Package` from `package`, and `dumps_list`, `rm_temp_dir`
from `utils`; those modules are not part of the source tree given here, so
their behaviour is modelled from the specification (each such definition is
marked "Modelled from the spec:").  Everything else is a direct shallow
embedding of the Python code.  Strings model Python `str`; `os.linesep` is
the POSIX `"\n"`; POSIX path semantics model `os.path`.
-/

namespace PyLaTeX

/-- `os.linesep` on a POSIX system. -/
def linesep : String := "\n"

/-- A LaTeX package dependency: a name plus options (`package.py` is not in
the source tree; the data model follows the spec's Dependency description:
"identified by a name string plus an ordered set of option strings"). -/
structure Package where
  name : String
  options : List String
deriving DecidableEq

/-- Modelled from the spec: rendering of one package directive — the
aggregated package directives are "one per dependency, options rendered as
a bracketed list", e.g. a font-encoding package with option T1 renders as
a usepackage directive with a bracketed option list. -/
def Package.dumps (p : Package) : String :=
  "\\usepackage"
    ++ (if p.options = [] then "" else "[" ++ String.intercalate "," p.options ++ "]")
    ++ "\x7b" ++ p.name ++ "\x7d"

/-- A LaTeX command: name, ordered arguments, options (`base_classes` is
not in the source tree; fields follow the spec's Command data model). -/
structure Command where
  name : String
  arguments : List String
  options : List String
deriving DecidableEq

/-- Modelled from the spec: `Command.serialize` "builds `\name` then, for
each option (if any), a single bracketed group listing all options
comma-joined, then for each argument a separate braced group"; an empty
string argument still produces an empty braced group; zero arguments
render as `\name` with no delimiters. -/
def Command.dumps (c : Command) : String :=
  "\\" ++ c.name
    ++ (if c.options = [] then "" else "[" ++ String.intercalate "," c.options ++ "]")
    ++ String.join (c.arguments.map (fun a => "\x7b" ++ a ++ "\x7d"))

/-- A rectangular two-dimensional numeric array, modelling the
`numpy.ndarray` handed to `Matrix`: row-major rows, a column count, and
the rectangularity numpy guarantees.  `shape` is `(rows.length, ncols)`. -/
structure NDArray where
  rows : List (List Int)
  ncols : Nat
  rect : ∀ r ∈ rows, r.length = ncols

/-- `shape[0]` of the array. -/
def NDArray.nrows (A : NDArray) : Nat := A.rows.length

/-- `numpy.ndenumerate`: row-major traversal yielding `((y, x), value)`. -/
def ndenumerate (rows : List (List Int)) : List (Nat × Nat × Int) :=
  rows.enum.flatMap (fun yr => yr.2.enum.map (fun xv => (yr.1, xv.1, xv.2)))

/-- One piece of `Matrix.dumps` output: a column separator `&`, a row
separator `\\` followed by a newline, or one element's `str(value)`. -/
inductive Tok where
  | colSep : Tok
  | rowSep : Tok
  | elem : String → Tok
deriving DecidableEq

/-- The text each piece contributes to the body string. -/
def Tok.render : Tok → String
  | .colSep => "&"
  | .rowSep => "\\\\\n"
  | .elem s => s

/-- The pieces the loop body of `Matrix.dumps` (math.py lines 103-109)
appends for the element at index `(y, x)`: `&` when `x` is non-zero, then
`str(value)`, then `\\` plus newline when `x == shape[1]-1 and
y != shape[0]-1`. -/
def matrixPiece (R C : Nat) (yxv : Nat × Nat × Int) : List Tok :=
  (if yxv.2.1 ≠ 0 then [Tok.colSep] else [])
    ++ [Tok.elem (toString yxv.2.2)]
    ++ (if yxv.2.1 = C - 1 ∧ yxv.1 ≠ R - 1 then [Tok.rowSep] else [])

/-- The body of `Matrix.dumps` as the list of appended pieces, following
the `ndenumerate` loop of math.py lines 103-109. -/
def matrixToks (A : NDArray) : List Tok :=
  (ndenumerate A.rows).flatMap (matrixPiece A.nrows A.ncols)

/-- The body string built by the `ndenumerate` loop of `Matrix.dumps`. -/
def matrixBody (A : NDArray) : String :=
  String.join ((matrixToks A).map Tok.render)

/-- The `Matrix` node of math.py: array, name, matrix type tag, optional
alignment, and the packages passed to `LatexObject.__init__`. -/
structure Matrix where
  matrix : NDArray
  name : String
  mtype : String
  alignment : Option String
  packages : List Package

/-- `Matrix.__init__` (math.py lines 72-81): stores the fields and passes
`packages=[Package('amsmath')]` to the superclass. -/
def Matrix.init (matrix : NDArray) (name : String) (mtype : String)
    (alignment : Option String) : Matrix :=
  { matrix := matrix, name := name, mtype := mtype, alignment := alignment,
    packages := [⟨"amsmath", []⟩] }

/-- `Matrix.dumps` (math.py lines 83-117): begin directive with the
`<mtype>matrix` environment name (starred, with a braced alignment group,
when alignment is set), newline, the `ndenumerate` body, newline, end
directive.  The trailing `super().dumps()` call of line 115 discards its
result and mutates nothing, so it does not appear. -/
def Matrix.dumps (m : Matrix) : String :=
  let mtype0 := m.mtype ++ "matrix"
  let p : String × String :=
    match m.alignment with
    | some a => (mtype0 ++ "*", "\x7b" ++ a ++ "\x7d")
    | none => (mtype0, "")
  "\\begin\x7b" ++ p.1 ++ "\x7d" ++ p.2 ++ "\n"
    ++ matrixBody m.matrix ++ "\n"
    ++ "\\end\x7b" ++ p.1 ++ "\x7d"

/-- A child of a Container: literal text, a command, a math environment
(inline flag plus children), or a matrix.  This closed set covers the node
kinds of the two source modules, as the spec's §9 suggests. -/
inductive Node where
  | text : String → Node
  | cmd : Command → Node
  | math : Bool → List Node → Node
  | matrix : Matrix → Node

mutual

/-- Serialization of one node.  `text` is verbatim (spec §4.2: "Literal
text children serialize as themselves verbatim"); `math` is `Math.dumps`
(math.py lines 28-41): the space-joined children in `$ … $` when inline,
in `$$ … $$` plus a newline otherwise (the discarded `super().dumps()`
call of line 39 mutates nothing and does not appear). -/
def Node.dumps : Node → String
  | .text s => s
  | .cmd c => c.dumps
  | .math inl data =>
      if inl then "$" ++ dumpsJoin " " data ++ "$"
      else "$$" ++ dumpsJoin " " data ++ "$$" ++ "\n"
  | .matrix m => m.dumps

/-- Modelled from the spec: `Container.dumps(token)` — "the concatenation
of each child's serialized text joined by `separator` (default:
newline)", i.e. Python's `token.join`. -/
def dumpsJoin (token : String) : List Node → String
  | [] => ""
  | [n] => n.dumps
  | n :: n2 :: rest => n.dumps ++ token ++ dumpsJoin token (n2 :: rest)

end

mutual

/-- Modelled from the spec: the dependencies one node declares —
recursively aggregated for containers, the constructor-supplied packages
for a Matrix, empty for literal text and plain commands. -/
def Node.pkgs : Node → List Package
  | .text _ => []
  | .cmd _ => []
  | .math _ data => pkgsJoin data
  | .matrix m => m.packages

/-- Modelled from the spec: dependency aggregation over a child sequence,
in order (spec §4.2 `collect_dependencies`). -/
def pkgsJoin : List Node → List Package
  | [] => []
  | n :: rest => n.pkgs ++ pkgsJoin rest

end

/-- Modelled from the spec: the Package Registry's dedup policy — "keyed
by dependency name; first occurrence's options retained". -/
def dedupPkgs (l : List Package) : List Package :=
  l.foldl (fun acc p => if (acc.map Package.name).contains p.name then acc else acc ++ [p]) []

/-- The `Math` container of math.py: an inline flag and children. -/
structure Math where
  inline : Bool
  data : List Node

/-- `Math.__init__` (math.py lines 24-26). -/
def Math.init (data : List Node) (inline : Bool) : Math :=
  { inline := inline, data := data }

/-- `Math.dumps` (math.py lines 28-41), shared with the `Node.math`
serialization. -/
def Math.dumps (m : Math) : String :=
  Node.dumps (.math m.inline m.data)

/-- The `Document` of document.py: default filepath, maketitle flag,
documentclass command, preamble command list, and (via `Container`) the
child sequence and seed packages. -/
structure Document where
  default_filepath : String
  maketitle : Bool
  documentclass : Command
  preamble : List Command
  data : List Node
  packages : List Package

/-- `Document.__init__` (document.py lines 46-70) with a string
documentclass (the `isinstance(documentclass, Command)` branch merely
stores a caller-built command instead): seeds the preamble with the
title, author and date commands in that order, and the package list with
fontenc (with the fontenc option), inputenc (with the inputenc option)
and lmodern. -/
def Document.init (default_filepath documentclass fontenc inputenc author title date : String)
    (data : List Node) (maketitle : Bool) : Document :=
  { default_filepath := default_filepath
    maketitle := maketitle
    documentclass := { name := "documentclass", arguments := [documentclass], options := [] }
    preamble :=
      [ { name := "title", arguments := [title], options := [] },
        { name := "author", arguments := [author], options := [] },
        { name := "date", arguments := [date], options := [] } ]
    data := data
    packages :=
      [ { name := "fontenc", options := [fontenc] },
        { name := "inputenc", options := [inputenc] },
        { name := "lmodern", options := [] } ] }

/-- Modelled from the spec: `dumps_packages` — the "aggregated
package-dependency directives (deduplicated, one per dependency)", the
registry being seeded from the Document's own packages plus those of the
children, rendered one directive per line. -/
def Document.dumps_packages (d : Document) : String :=
  String.intercalate linesep ((dedupPkgs (d.packages ++ pkgsJoin d.data)).map Package.dumps)

/-- Modelled from the spec: `utils.dumps_list` applied to the preamble —
each command's serialization, newline-joined. -/
def dumps_list (l : List Command) : String :=
  String.intercalate linesep (l.map Command.dumps)

/-- `Document.dumps` (document.py lines 72-92), statement by statement:
the `document` block is assembled first (begin marker, optional
maketitle, content, end marker), then the `head` (documentclass,
packages, preamble), and `head + os.linesep + document` is returned. -/
def Document.dumps (d : Document) : String :=
  let document := "\\begin\x7bdocument\x7d" ++ linesep
  let document := if d.maketitle then document ++ "\\maketitle" ++ linesep else document
  let document := document ++ dumpsJoin linesep d.data ++ linesep
  let document := document ++ "\\end\x7bdocument\x7d" ++ linesep
  let head := d.documentclass.dumps ++ linesep
  let head := head ++ d.dumps_packages ++ linesep
  let head := head ++ dumps_list d.preamble ++ linesep
  head ++ linesep ++ document

/-- `Document.dumps` with the object state threaded explicitly, as a
state-passing translation of the method: the body of document.py lines
72-92 only reads `self` (no attribute is assigned, no global written), so
the returned state is the input state. -/
def Document.dumpsS (d : Document) : String × Document :=
  let document := "\\begin\x7bdocument\x7d" ++ linesep
  let document := if d.maketitle then document ++ "\\maketitle" ++ linesep else document
  let document := document ++ dumpsJoin linesep d.data ++ linesep
  let document := document ++ "\\end\x7bdocument\x7d" ++ linesep
  let head := d.documentclass.dumps ++ linesep
  let head := head ++ d.dumps_packages ++ linesep
  let head := head ++ dumps_list d.preamble ++ linesep
  (head ++ linesep ++ document, d)

/-! ### POSIX path semantics (`os.path` on the system running the code) -/

/-- Whether a path's last character is the separator `/`. -/
def endsWithSlash (p : String) : Bool :=
  match p.data.reverse.head? with
  | some c => decide (c = '/')
  | none => false

/-- Whether a path's first character is the separator `/`. -/
def startsWithSlash (p : String) : Bool :=
  match p.data.head? with
  | some c => decide (c = '/')
  | none => false

/-- `os.path.basename`: everything after the last `/` (the whole string
when there is no `/`). -/
def basename (p : String) : String :=
  String.mk ((p.data.reverse.takeWhile (fun c => decide (c ≠ '/'))).reverse)

/-- `os.path.dirname`: everything before the last `/`, with trailing
separators stripped unless the result is all separators. -/
def dirname (p : String) : String :=
  let head := (p.data.reverse.dropWhile (fun c => decide (c ≠ '/'))).reverse
  if head.all (fun c => decide (c = '/')) then String.mk head
  else String.mk ((head.reverse.dropWhile (fun c => decide (c = '/'))).reverse)

/-- `os.path.join` on two components: an absolute second component wins;
otherwise the components are joined, inserting a `/` unless the first is
empty or already ends in one. -/
def pathJoin (a b : String) : String :=
  if startsWithSlash b then b
  else if a = "" || endsWithSlash a then a ++ b
  else a ++ "/" ++ b

/-- `Document.select_filepath` (document.py lines 145-163): the default
filepath when `filepath` is empty; `os.path.join(filepath,
basename(default_filepath))` when `os.path.basename(filepath)` is empty;
`filepath` itself otherwise. -/
def Document.select_filepath (d : Document) (filepath : String) : String :=
  if filepath = "" then d.default_filepath
  else if basename filepath = "" then pathJoin filepath (basename d.default_filepath)
  else filepath

/-! ### The `generate_pdf` effect model

`Document.generate_pdf` (document.py lines 97-143) shells out to the
compiler and touches the filesystem; we model the ambient state it reads
and writes (the current working directory and the set of written files)
and the behaviour of its collaborators (the compiler process, `os.remove`
and the OS's `chdir` path resolution) explicitly, and translate the
method statement by statement over that state. -/

/-- One run of the external compiler process: its exit code and what it
writes to its two output streams. -/
structure CompilerRun where
  exitCode : Nat
  stdout : String
  stderr : String

/-- `subprocess.check_output(command)`: returns the captured standard
output on exit code 0, otherwise raises `CalledProcessError` whose
`output` attribute is the captured standard output.  The standard error
stream is not redirected by this call, so its text is not captured. -/
def checkOutput (c : CompilerRun) : Except (Nat × String) String :=
  if c.exitCode = 0 then .ok c.stdout else .error (c.exitCode, c.stdout)

/-- Outcome of one `os.remove` call: success, failure with `errno ==
errno.ENOENT` (no such file), or failure with any other errno. -/
inductive RemoveResult where
  | ok : RemoveResult
  | errNoEnt : RemoveResult
  | errOther : String → RemoveResult
deriving DecidableEq

/-- The collaborators of one `generate_pdf` call: how `os.chdir` resolves
a path against the current directory, what the compiler process does, and
what each `os.remove` call does. -/
structure Env where
  resolve : String → String → String
  compiler : CompilerRun
  remove : String → RemoveResult

/-- The ambient process state `generate_pdf` mutates: the current working
directory and the files written so far. -/
structure World where
  cwd : String
  written : List String
deriving DecidableEq

/-- The failures `generate_pdf` can raise: `subprocess.CalledProcessError`
(carrying the exit code and the captured output attached to the
exception) or a propagated `OSError` from cleanup. -/
inductive PdfError where
  | calledProcess : Nat → String → PdfError
  | removeError : String → PdfError
deriving DecidableEq

/-- The cleanup loop of document.py lines 134-140: for each extension,
`os.remove(basename + '.' + ext)`; an `ENOENT` failure is swallowed and
the loop continues, any other failure propagates (`raise`). -/
def cleanupLoop (remove : String → RemoveResult) (bn : String) : List String → Except String Unit
  | [] => .ok ()
  | ext :: rest =>
      match remove (bn ++ "." ++ ext) with
      | .ok => cleanupLoop remove bn rest
      | .errNoEnt => cleanupLoop remove bn rest
      | .errOther msg => .error msg

/-- `Document.generate_pdf` (document.py lines 97-143), statement by
statement over the explicit state: resolve the filepath, prepend `./`,
save `os.getcwd()`, `os.chdir` to the directory part, write the `.tex`
file (`generate_tex`, which re-runs `select_filepath` on the basename),
run the compiler via `check_output` — re-raising `CalledProcessError`
without restoring the directory — then, when `clean` is set, run the
cleanup loop (a propagated cleanup error also skips the restore) and
`rm_temp_dir()`, and finally `os.chdir` back to the saved directory. -/
def Document.generate_pdf (d : Document) (env : Env) (w : World)
    (filepath : String) (clean : Bool) : Except PdfError String × World :=
  let fp := d.select_filepath filepath
  let fp := pathJoin "." fp
  let curDir := w.cwd
  let destDir := dirname fp
  let bn := basename fp
  let w := { w with cwd := env.resolve w.cwd destDir }
  let w := { w with written := w.written ++ [d.select_filepath bn ++ ".tex"] }
  match checkOutput env.compiler with
  | .error e => (.error (.calledProcess e.1 e.2), w)
  | .ok out =>
      if clean then
        match cleanupLoop env.remove bn ["aux", "log", "out", "tex"] with
        | .error msg => (.error (.removeError msg), w)
        | .ok _ => (.ok out, { w with cwd := env.resolve w.cwd curDir })
      else (.ok out, { w with cwd := env.resolve w.cwd curDir })

/-! ### Spec-side definitions (refinement targets) and proof helpers -/

/-- The render-to-text output in the order the spec's words prescribe
(§4.6 "Render to text"): documentclass directive, aggregated package
directives, preamble commands, a document-begin marker, the optional
title-generation directive (only if the maketitle flag is set), the
serialized content sequence, a document-end marker.  Written from the
spec to be compared with `Document.dumps`. -/
def specDocumentRender (d : Document) : String :=
  d.documentclass.dumps ++ linesep
    ++ d.dumps_packages ++ linesep
    ++ dumps_list d.preamble ++ linesep
    ++ linesep
    ++ "\\begin\x7bdocument\x7d" ++ linesep
    ++ (if d.maketitle then "\\maketitle" ++ linesep else "")
    ++ dumpsJoin linesep d.data ++ linesep
    ++ "\\end\x7bdocument\x7d" ++ linesep

/-- The math serialization the spec's words prescribe (§4.4): "if inline,
wraps the Container's serialization (space-joined) in single-dollar
delimiters on one line; if block, wraps it in double-dollar delimiters
with the closing delimiter followed by a line break".  Written from the
spec to be compared with `Math.dumps`. -/
def specMathRender (m : Math) : String :=
  if m.inline then "$" ++ dumpsJoin " " m.data ++ "$"
  else "$$" ++ dumpsJoin " " m.data ++ "$$" ++ "\n"

/-- Join a list of token lists with a separator token list between
consecutive entries (the shape the spec's Matrix shape law describes:
separators only between entries, none before the first or after the
last). -/
def sepJoin (sep : List Tok) : List (List Tok) → List Tok
  | [] => []
  | [a] => a
  | a :: b :: rest => a ++ sep ++ sepJoin sep (b :: rest)

/-- One matrix row as tokens: the elements' string forms with a column
separator between consecutive elements. -/
def rowToks (r : List Int) : List Tok :=
  sepJoin [Tok.colSep] (r.map (fun v => [Tok.elem (toString v)]))

/-- Number of occurrences of a token in a token list. -/
def countTok (t : Tok) : List Tok → Nat
  | [] => 0
  | a :: l => (if a = t then 1 else 0) + countTok t l

/-- Whether `pat` is an initial segment of `l`. -/
def startsL : List Char → List Char → Bool
  | [], _ => true
  | _ :: _, [] => false
  | p :: ps, c :: cs => decide (p = c) && startsL ps cs

/-- Whether `pat` occurs contiguously somewhere in `l`. -/
def occursL (pat : List Char) : List Char → Bool
  | [] => pat.isEmpty
  | c :: cs => startsL pat (c :: cs) || occursL pat cs

/-- Whether the string `pat` occurs as a contiguous substring of `s`. -/
def containsStr (s pat : String) : Bool := occursL pat.data s.data

/-! ### Theorems -/

theorem countTok_append (t : Tok) (l1 l2 : List Tok) :
    countTok t (l1 ++ l2) = countTok t l1 + countTok t l2 := by
  induction l1 with
  | nil => simp [countTok]
  | cons a l ih => simp [countTok, ih]; omega

theorem countTok_sepJoin_self (t : Tok) :
    ∀ l : List (List Tok), (∀ a ∈ l, countTok t a = 0) →
      countTok t (sepJoin [t] l) = l.length - 1
  | [], _ => by simp [sepJoin, countTok]
  | [a], h => by simp [sepJoin, h a (by simp)]
  | a :: b :: rest, h => by
      have ih := countTok_sepJoin_self t (b :: rest)
        (fun x hx => h x (List.mem_cons_of_mem _ hx))
      simp [sepJoin, countTok_append, h a (by simp), countTok, ih]
      omega

theorem rowToks_cons2 (v w : Int) (rest : List Int) :
    rowToks (v :: w :: rest) = [Tok.elem (toString v)] ++ [Tok.colSep] ++ rowToks (w :: rest) :=
  rfl

theorem countTok_colSep_rowToks : ∀ r : List Int, countTok Tok.colSep (rowToks r) = r.length - 1
  | [] => by simp [rowToks, sepJoin, countTok]
  | [v] => by simp [rowToks, sepJoin, countTok]
  | v :: w :: rest => by
      rw [rowToks_cons2, countTok_append, countTok_append, countTok_colSep_rowToks (w :: rest)]
      simp [countTok]
      omega

theorem countTok_rowSep_rowToks : ∀ r : List Int, countTok Tok.rowSep (rowToks r) = 0
  | [] => by simp [rowToks, sepJoin, countTok]
  | [v] => by simp [rowToks, sepJoin, countTok]
  | v :: w :: rest => by
      rw [rowToks_cons2, countTok_append, countTok_append, countTok_rowSep_rowToks (w :: rest)]
      simp [countTok]

theorem rowToks_cons_flat : ∀ (v : Int) (rest : List Int),
    rowToks (v :: rest)
      = Tok.elem (toString v) :: rest.flatMap (fun w => [Tok.colSep, Tok.elem (toString w)])
  | v, [] => rfl
  | v, w :: rest2 => by
      rw [show rowToks (v :: w :: rest2)
            = [Tok.elem (toString v)] ++ [Tok.colSep] ++ rowToks (w :: rest2) from rfl,
        rowToks_cons_flat w rest2]
      simp

theorem row_tail (R C y : Nat) : ∀ (k : Nat) (r : List Int), 1 ≤ k → k + r.length = C →
    (r.enumFrom k).flatMap (fun xv => matrixPiece R C (y, xv.1, xv.2))
      = r.flatMap (fun v => [Tok.colSep, Tok.elem (toString v)])
        ++ (if r ≠ [] ∧ y ≠ R - 1 then [Tok.rowSep] else [])
  | k, [], hk, hC => by simp
  | k, v :: rest, hk, hC => by
      have hk0 : k ≠ 0 := by omega
      rw [show (v :: rest).enumFrom k = (k, v) :: rest.enumFrom (k + 1) from rfl,
        List.flatMap_cons]
      cases rest with
      | nil =>
          have hkC : k = C - 1 := by simp at hC; omega
          have hC0 : C - 1 ≠ 0 := by omega
          by_cases hy : y = R - 1 <;> simp [matrixPiece, hk0, hkC, hC0, hy]
      | cons w rest2 =>
          have hkC : k ≠ C - 1 := by simp at hC; omega
          have ih := row_tail R C y (k + 1) (w :: rest2) (by omega) (by simp at hC ⊢; omega)
          rw [ih]
          by_cases hy : y = R - 1 <;> simp [matrixPiece, hk0, hkC, hy]

theorem row_full (R C y : Nat) (r : List Int) (hlen : r.length = C) (hC : 1 ≤ C) :
    r.enum.flatMap (fun xv => matrixPiece R C (y, xv.1, xv.2))
      = rowToks r ++ (if y ≠ R - 1 then [Tok.rowSep] else []) := by
  cases r with
  | nil => simp at hlen; omega
  | cons v rest =>
      rw [show (v :: rest).enum = (0, v) :: rest.enumFrom 1 from rfl, List.flatMap_cons]
      cases rest with
      | nil =>
          have hC1 : C - 1 = 0 := by simp at hlen; omega
          by_cases hy : y = R - 1 <;> simp [matrixPiece, hC1, hy, rowToks, sepJoin]
      | cons w rest2 =>
          have hC1 : ¬(0 : Nat) = C - 1 := by simp at hlen; omega
          have ht := row_tail R C y 1 (w :: rest2) (by omega) (by simp at hlen ⊢; omega)
          rw [ht, rowToks_cons_flat]
          by_cases hy : y = R - 1 <;> simp [matrixPiece, hC1, hy]

theorem matrix_tail (R C : Nat) (hC : 1 ≤ C) : ∀ (j : Nat) (rows : List (List Int)),
    j + rows.length = R → (∀ r ∈ rows, r.length = C) →
    (rows.enumFrom j).flatMap
        (fun yr => yr.2.enum.flatMap (fun xv => matrixPiece R C (yr.1, xv.1, xv.2)))
      = sepJoin [Tok.rowSep] (rows.map rowToks)
  | j, [], hR, hr => by simp [sepJoin]
  | j, r :: rest, hR, hr => by
      rw [show (r :: rest).enumFrom j = (j, r) :: rest.enumFrom (j + 1) from rfl,
        List.flatMap_cons]
      rw [row_full R C j r (hr r (by simp)) hC]
      cases rest with
      | nil =>
          have hj : j = R - 1 := by simp at hR; omega
          simp [sepJoin, hj]
      | cons r2 rest2 =>
          have hj : j ≠ R - 1 := by simp at hR; omega
          have ih := matrix_tail R C hC (j + 1) (r2 :: rest2) (by simp at hR ⊢; omega)
            (fun x hx => hr x (List.mem_cons_of_mem _ hx))
          rw [ih]
          simp [sepJoin, hj]

theorem matrixToks_eq (A : NDArray) (hC : 1 ≤ A.ncols) :
    matrixToks A = sepJoin [Tok.rowSep] (A.rows.map rowToks) := by
  unfold matrixToks ndenumerate
  rw [List.flatMap_assoc]
  simp only [List.flatMap_map]
  exact matrix_tail A.nrows A.ncols hC 0 A.rows (by simp [NDArray.nrows]) A.rect

/-- C2: for an R×C array with R ≥ 1 and C ≥ 1, the token sequence the
`Matrix.dumps` loop emits is the rows (each the C elements joined by
column separators, hence C−1 of them per row) joined by row separators
(hence exactly R−1 of them, each after the last element of a non-final
row); the body string is the rendering of that sequence.  A 1×1 matrix
therefore emits 0 separators of either kind. -/
theorem matrix_separator_counts (A : NDArray) (hR : 1 ≤ A.nrows) (hC : 1 ≤ A.ncols) :
    matrixToks A = sepJoin [Tok.rowSep] (A.rows.map rowToks) ∧
    countTok Tok.rowSep (matrixToks A) = A.nrows - 1 ∧
    (∀ r ∈ A.rows, countTok Tok.colSep (rowToks r) = A.ncols - 1) ∧
    matrixBody A = String.join ((sepJoin [Tok.rowSep] (A.rows.map rowToks)).map Tok.render) := by
  have he := matrixToks_eq A hC
  refine ⟨he, ?_, ?_, ?_⟩
  · rw [he, countTok_sepJoin_self]
    · simp [NDArray.nrows]
    · intro a ha
      obtain ⟨r, hr, rfl⟩ := List.mem_map.1 ha
      exact countTok_rowSep_rowToks r
  · intro r hr
    rw [countTok_colSep_rowToks, A.rect r hr]
  · unfold matrixBody
    rw [he]

/-- Witness for C2 on a concrete 2×3 matrix and a concrete 1×1 matrix
(the latter emitting no separators at all). -/
theorem matrix_separator_counts_witness :
    countTok Tok.rowSep (matrixToks ⟨[[1, 2, 3], [4, 5, 6]], 3, by decide⟩) = 1 ∧
    (∀ r ∈ ([[1, 2, 3], [4, 5, 6]] : List (List Int)),
      countTok Tok.colSep (rowToks r) = 2) ∧
    countTok Tok.rowSep (matrixToks ⟨[[5]], 1, by decide⟩) = 0 ∧
    (∀ r ∈ ([[5]] : List (List Int)), countTok Tok.colSep (rowToks r) = 0) :=
  ⟨(matrix_separator_counts ⟨[[1, 2, 3], [4, 5, 6]], 3, by decide⟩ (by decide) (by decide)).2.1,
   (matrix_separator_counts ⟨[[1, 2, 3], [4, 5, 6]], 3, by decide⟩ (by decide) (by decide)).2.2.1,
   (matrix_separator_counts ⟨[[5]], 1, by decide⟩ (by decide) (by decide)).2.1,
   (matrix_separator_counts ⟨[[5]], 1, by decide⟩ (by decide) (by decide)).2.2.1⟩

/-- C1: For every Document state, `Document.dumps` produces, in this fixed
order: the documentclass directive, then the aggregated package
directives, then the preamble commands in title, author, date order (the
order `Document.__init__` seeds them in), then a document-begin marker,
then a title-generation directive if and only if the maketitle flag is
set, then the serialized content sequence, then a document-end marker. -/
theorem document_dumps_order :
    (∀ d : Document, d.dumps = specDocumentRender d) ∧
    (∀ dfp dc fe ie author title date data mk,
      (Document.init dfp dc fe ie author title date data mk).preamble =
        [{ name := "title", arguments := [title], options := [] },
         { name := "author", arguments := [author], options := [] },
         { name := "date", arguments := [date], options := [] }]) := by
  constructor
  · intro d
    unfold Document.dumps specDocumentRender
    cases h : d.maketitle <;> simp [String.append_assoc]
  · intro dfp dc fe ie author title date data mk
    rfl

/-- C3: `Document.dumps`, as a state-passing translation of the method,
leaves the Document state unchanged, so calling it twice in succession
yields byte-identical output both times. -/
theorem document_dumps_idempotent (d : Document) :
    Document.dumpsS d = (Document.dumps d, d) ∧
    (Document.dumpsS (Document.dumpsS d).2).1 = (Document.dumpsS d).1 :=
  ⟨rfl, rfl⟩

/-- C4: `Math.dumps` wraps the space-joined child serialization in
single-dollar delimiters with no trailing line break (last character `$`)
when the inline flag is true, and in double-dollar delimiters with a line
break after the closing delimiter (last character a newline) when it is
false. -/
theorem math_dumps_delimiters :
    (∀ m : Math, m.dumps = specMathRender m) ∧
    (∀ m : Math, m.inline = true → m.dumps.data.getLast? = some '$') ∧
    (∀ m : Math, m.inline = false → m.dumps.data.getLast? = some '\n') := by
  refine ⟨fun m => rfl, fun m h => ?_, fun m h => ?_⟩
  · unfold Math.dumps Node.dumps
    rw [h]
    simp only [if_true, String.data_append]
    rw [List.getLast?_append]
    rfl
  · unfold Math.dumps Node.dumps
    rw [h]
    simp only [Bool.false_eq_true, if_false, String.data_append]
    rw [List.getLast?_append]
    rfl

/-- Witness for C4 at a concrete one-child math environment. -/
theorem math_dumps_delimiters_witness :
    Math.dumps (Math.init [Node.text "x"] true) = specMathRender (Math.init [Node.text "x"] true) ∧
    (Math.init [Node.text "x"] true).dumps.data.getLast? = some '$' ∧
    (Math.init [Node.text "x"] false).dumps.data.getLast? = some '\n' :=
  ⟨math_dumps_delimiters.1 _, math_dumps_delimiters.2.1 _ rfl, math_dumps_delimiters.2.2 _ rfl⟩

/-- C7: in `Matrix.dumps`, when the alignment is present the environment
name in both the begin and the end directive gains the starred suffix and
the begin directive is followed by the alignment in a braced group; when
it is absent neither the star nor the alignment group appears. -/
theorem matrix_alignment_star (m : Matrix) :
    (∀ a, m.alignment = some a →
      m.dumps = "\\begin\x7b" ++ (m.mtype ++ "matrix*") ++ "\x7d" ++ ("\x7b" ++ a ++ "\x7d") ++ "\n"
        ++ matrixBody m.matrix ++ "\n" ++ "\\end\x7b" ++ (m.mtype ++ "matrix*") ++ "\x7d") ∧
    (m.alignment = none →
      m.dumps = "\\begin\x7b" ++ (m.mtype ++ "matrix") ++ "\x7d" ++ "\n"
        ++ matrixBody m.matrix ++ "\n" ++ "\\end\x7b" ++ (m.mtype ++ "matrix") ++ "\x7d") := by
  constructor
  · intro a h
    unfold Matrix.dumps
    rw [h]
    simp [String.append_assoc]
  · intro h
    unfold Matrix.dumps
    rw [h]
    simp [String.append_assoc]

/-- Witness for C7 on a concrete 1×1 matrix, with and without
alignment. -/
theorem matrix_alignment_star_witness :
    (Matrix.init ⟨[[5]], 1, by decide⟩ "" "p" (some "r")).dumps
      = "\\begin\x7b" ++ ("p" ++ "matrix*") ++ "\x7d" ++ ("\x7b" ++ "r" ++ "\x7d") ++ "\n"
        ++ matrixBody ⟨[[5]], 1, by decide⟩ ++ "\n" ++ "\\end\x7b" ++ ("p" ++ "matrix*") ++ "\x7d" ∧
    (Matrix.init ⟨[[5]], 1, by decide⟩ "" "p" none).dumps
      = "\\begin\x7b" ++ ("p" ++ "matrix") ++ "\x7d" ++ "\n"
        ++ matrixBody ⟨[[5]], 1, by decide⟩ ++ "\n" ++ "\\end\x7b" ++ ("p" ++ "matrix") ++ "\x7d" :=
  ⟨(matrix_alignment_star _).1 "r" rfl, (matrix_alignment_star _).2 rfl⟩

/-- C10: every Matrix node, regardless of constructor arguments, declares
exactly the amsmath package as its dependency set. -/
theorem matrix_packages_amsmath (A : NDArray) (name mtype : String) (al : Option String) :
    (Matrix.init A name mtype al).packages = [{ name := "amsmath", options := [] }] :=
  rfl

theorem stringMk_eq_empty_iff (l : List Char) : String.mk l = "" ↔ l = [] :=
  ⟨fun h => by have := congrArg String.data h; simpa using this, fun h => by rw [h]⟩

theorem string_eq_empty_iff (p : String) : p = "" ↔ p.data = [] :=
  ⟨fun h => by rw [h], fun h => String.ext (h.trans rfl)⟩

theorem mem_basename_ne_slash (p : String) : ∀ c ∈ (basename p).data, ¬c = '/' := by
  intro c hc
  have h1 : c ∈ p.data.reverse.takeWhile (fun c => decide (c ≠ '/')) := by
    simpa [basename] using hc
  have h2 := List.mem_takeWhile_imp h1
  simpa using h2

theorem startsWithSlash_basename (p : String) : startsWithSlash (basename p) = false := by
  unfold startsWithSlash
  cases h : (basename p).data with
  | nil => rfl
  | cons c t =>
      have hc : c ∈ (basename p).data := by rw [h]; simp
      have hne := mem_basename_ne_slash p c hc
      simp [hne]

theorem basename_empty_iff (p : String) (hp : p ≠ "") :
    (basename p = "" ↔ endsWithSlash p = true) := by
  have hd : p.data ≠ [] := fun h => hp ((string_eq_empty_iff p).2 h)
  cases hr : p.data.reverse with
  | nil => exact absurd (by simpa using congrArg List.reverse hr) hd
  | cons c t =>
      unfold basename endsWithSlash
      rw [hr]
      by_cases hc : c = '/' <;>
        simp [List.takeWhile_cons, hc, stringMk_eq_empty_iff]

/-- C8: `Document.select_filepath` returns the default filepath verbatim
when the explicit path is empty; the explicit path with the default
path's filename component appended when the explicit path ends in the
path separator (that is exactly when `os.path.basename` of it is empty);
and the explicit path unchanged otherwise. -/
theorem select_filepath_cases (d : Document) (fp : String) :
    (fp = "" → d.select_filepath fp = d.default_filepath) ∧
    (endsWithSlash fp = true → d.select_filepath fp = fp ++ basename d.default_filepath) ∧
    (fp ≠ "" → endsWithSlash fp = false → d.select_filepath fp = fp) := by
  refine ⟨fun h => by simp [Document.select_filepath, h], fun h => ?_, fun h1 h2 => ?_⟩
  · have hne : fp ≠ "" := by
      intro he
      rw [he] at h
      exact absurd h (by decide)
    have hb : basename fp = "" := (basename_empty_iff fp hne).2 h
    simp [Document.select_filepath, hne, hb, pathJoin, startsWithSlash_basename, h]
  · have hb : basename fp ≠ "" := fun hbe => by
      have ht := (basename_empty_iff fp h1).1 hbe
      rw [h2] at ht
      exact absurd ht (by decide)
    simp [Document.select_filepath, h1, hb]

/-- Witness for C8: the three branches at concrete paths. -/
theorem select_filepath_cases_witness :
    (Document.init "default_filepath" "article" "T1" "utf8" "" "" "" [] false).select_filepath ""
      = "default_filepath" ∧
    (Document.init "default_filepath" "article" "T1" "utf8" "" "" "" [] false).select_filepath "out/"
      = "out/" ++ basename "default_filepath" ∧
    (Document.init "default_filepath" "article" "T1" "utf8" "" "" "" [] false).select_filepath "doc"
      = "doc" :=
  ⟨(select_filepath_cases _ "").1 rfl,
   (select_filepath_cases _ "out/").2.1 (by decide),
   (select_filepath_cases _ "doc").2.2 (by decide) (by decide)⟩

theorem cleanupLoop_ok_iff (remove : String → RemoveResult) (bn : String) :
    ∀ exts : List String,
      (cleanupLoop remove bn exts = .ok () ↔
        ∀ ext ∈ exts, ∀ m, remove (bn ++ "." ++ ext) ≠ .errOther m)
  | [] => by simp [cleanupLoop]
  | ext :: rest => by
      have ih := cleanupLoop_ok_iff remove bn rest
      cases h : remove (bn ++ "." ++ ext) with
      | ok => simp [cleanupLoop, h, ih]
      | errNoEnt => simp [cleanupLoop, h, ih]
      | errOther msg =>
          refine iff_of_false (by simp [cleanupLoop, h]) ?_
          intro hall
          exact hall ext (by simp) msg h

theorem generate_pdf_ok_case (d : Document) (env : Env) (w : World) (fp : String)
    (hc : env.compiler.exitCode = 0) :
    (d.generate_pdf env w fp true).1
      = match cleanupLoop env.remove (basename (pathJoin "." (d.select_filepath fp)))
          ["aux", "log", "out", "tex"] with
        | .error msg => .error (.removeError msg)
        | .ok _ => .ok env.compiler.stdout := by
  simp only [Document.generate_pdf, checkOutput, hc, if_true]
  cases hcl : cleanupLoop env.remove (basename (pathJoin "." (d.select_filepath fp)))
      ["aux", "log", "out", "tex"] with
  | ok u => simp [hcl]
  | error msg => simp [hcl]

/-- C9: during post-compile cleanup in `generate_pdf` (compiler succeeded,
clean requested), the whole call succeeds exactly when no removal fails
for a reason other than "file does not exist" — an ENOENT failure is
silently tolerated and cleanup continues — and a removal failure of any
other kind propagates that error to the caller. -/
theorem cleanup_enoent_tolerated (d : Document) (env : Env) (w : World) (fp : String)
    (hc : env.compiler.exitCode = 0) :
    ((d.generate_pdf env w fp true).1 = .ok env.compiler.stdout ↔
      ∀ ext ∈ (["aux", "log", "out", "tex"] : List String), ∀ m,
        env.remove (basename (pathJoin "." (d.select_filepath fp)) ++ "." ++ ext)
          ≠ .errOther m) ∧
    (∀ msg,
      cleanupLoop env.remove (basename (pathJoin "." (d.select_filepath fp)))
          ["aux", "log", "out", "tex"] = .error msg →
      (d.generate_pdf env w fp true).1 = .error (.removeError msg)) := by
  rw [generate_pdf_ok_case d env w fp hc]
  constructor
  · cases hcl : cleanupLoop env.remove (basename (pathJoin "." (d.select_filepath fp)))
        ["aux", "log", "out", "tex"] with
    | ok u =>
        cases u
        exact iff_of_true rfl ((cleanupLoop_ok_iff env.remove _ _).1 hcl)
    | error msg =>
        refine iff_of_false (by simp) ?_
        intro hall
        rw [(cleanupLoop_ok_iff env.remove _ _).2 hall] at hcl
        exact Except.noConfusion hcl
  · intro msg hcl
    rw [hcl]

/-- Witness for C9: with an ENOENT failure on the aux file the call still
succeeds; with a non-ENOENT failure on the log file the error
propagates. -/
theorem cleanup_enoent_tolerated_witness :
    ((Document.init "default_filepath" "article" "T1" "utf8" "" "" "" [] false).generate_pdf
        { resolve := fun _ p => p,
          compiler := { exitCode := 0, stdout := "ok", stderr := "" },
          remove := fun s => if s = "default_filepath.aux" then RemoveResult.errNoEnt
            else RemoveResult.ok }
        { cwd := "/home/user", written := [] } "" true).1
      = Except.ok "ok" ∧
    ((Document.init "default_filepath" "article" "T1" "utf8" "" "" "" [] false).generate_pdf
        { resolve := fun _ p => p,
          compiler := { exitCode := 0, stdout := "ok", stderr := "" },
          remove := fun s => if s = "default_filepath.log" then RemoveResult.errOther "perm"
            else RemoveResult.ok }
        { cwd := "/home/user", written := [] } "" true).1
      = Except.error (PdfError.removeError "perm") :=
  ⟨(cleanup_enoent_tolerated _ _ _ _ rfl).1.mpr (by
      intro ext hext m h
      fin_cases hext <;> exact RemoveResult.noConfusion h),
   (cleanup_enoent_tolerated _ _ _ _ rfl).2 "perm" rfl⟩

/-- C6 (amended): when the external compiler exits non-zero,
`generate_pdf` raises a `CalledProcessError` carrying the exit code and
the captured standard output as the attached diagnostic; hence the
diagnostic contains "undefined control sequence" whenever the compiler
wrote that text to its standard output.  Text written only to the error
stream is not captured (see the counterexample). -/
theorem generate_pdf_failure_carries_stdout (d : Document) (env : Env) (w : World)
    (fp : String) (clean : Bool) (h : env.compiler.exitCode ≠ 0) :
    (d.generate_pdf env w fp clean).1
      = .error (.calledProcess env.compiler.exitCode env.compiler.stdout) ∧
    (containsStr env.compiler.stdout "undefined control sequence" = true →
      ∃ diag, (d.generate_pdf env w fp clean).1
          = .error (.calledProcess env.compiler.exitCode diag) ∧
        containsStr diag "undefined control sequence" = true) := by
  have he : (d.generate_pdf env w fp clean).1
      = .error (.calledProcess env.compiler.exitCode env.compiler.stdout) := by
    simp only [Document.generate_pdf, checkOutput, if_neg h]
  exact ⟨he, fun hc => ⟨env.compiler.stdout, he, hc⟩⟩

/-- Witness for C6 (amended): a failing compiler that writes the text to
its standard output. -/
theorem generate_pdf_failure_carries_stdout_witness :
    ((Document.init "default_filepath" "article" "T1" "utf8" "" "" "" [] false).generate_pdf
        { resolve := fun _ p => p,
          compiler := { exitCode := 1, stdout := "undefined control sequence", stderr := "" },
          remove := fun _ => RemoveResult.ok }
        { cwd := "/home/user", written := [] } "" true).1
      = Except.error (PdfError.calledProcess 1 "undefined control sequence") ∧
    ∃ diag,
      ((Document.init "default_filepath" "article" "T1" "utf8" "" "" "" [] false).generate_pdf
          { resolve := fun _ p => p,
            compiler := { exitCode := 1, stdout := "undefined control sequence", stderr := "" },
            remove := fun _ => RemoveResult.ok }
          { cwd := "/home/user", written := [] } "" true).1
        = Except.error (PdfError.calledProcess 1 diag) ∧
      containsStr diag "undefined control sequence" = true :=
  ⟨(generate_pdf_failure_carries_stdout _ _ _ _ _ (by decide)).1,
   (generate_pdf_failure_carries_stdout _ _ _ _ _ (by decide)).2 (by decide)⟩

/-- Counterexample to C6 as stated: a compiler stub that exits 1 and
writes "undefined control sequence" only to its error stream.
`subprocess.check_output` does not capture the error stream, so the
attached diagnostic is the empty captured standard output, which does not
contain that text. -/
theorem generate_pdf_stderr_not_in_diag :
    ((Document.init "default_filepath" "article" "T1" "utf8" "" "" "" [] false).generate_pdf
        { resolve := fun _ p => p,
          compiler := { exitCode := 1, stdout := "", stderr := "undefined control sequence" },
          remove := fun _ => RemoveResult.ok }
        { cwd := "/home/user", written := [] } "" true).1
      = Except.error (PdfError.calledProcess 1 "") ∧
    containsStr "" "undefined control sequence" = false :=
  ⟨rfl, rfl⟩

/-- C5 is violated by the code: when the compiler invocation fails,
document.py line 128 re-raises before the `os.chdir(cur_dir)` of line
143 runs, so the working directory stays at the destination directory
("/tmp/out" here) instead of being restored to the saved "/home/user". -/
theorem generate_pdf_cwd_not_restored :
    ((Document.init "default_filepath" "article" "T1" "utf8" "" "" "" [] false).generate_pdf
        { resolve := fun _ p => p,
          compiler := { exitCode := 1, stdout := "", stderr := "" },
          remove := fun _ => RemoveResult.ok }
        { cwd := "/home/user", written := [] } "/tmp/out/doc" true).2.cwd = "/tmp/out" ∧
    ("/tmp/out" : String) ≠ "/home/user" ∧
    ((Document.init "default_filepath" "article" "T1" "utf8" "" "" "" [] false).generate_pdf
        { resolve := fun _ p => p,
          compiler := { exitCode := 1, stdout := "", stderr := "" },
          remove := fun _ => RemoveResult.ok }
        { cwd := "/home/user", written := [] } "/tmp/out/doc" true).1
      = Except.error (PdfError.calledProcess 1 "") :=
  ⟨rfl, by decide, rfl⟩

end PyLaTeX
